import Mathlib

/-!
Verification of the Evidently AI Streamlit dashboard UI module (`src/ui.py`).

The module is a presentation layer over a filesystem of pre-rendered HTML
report artifacts.  We embed it shallowly:

* the filesystem is a finite association of path strings to entries
  (regular files with text content, or directories with child-name lists);
* each UI function is a pure Lean function that returns the list of
  effects it performs (Streamlit render calls and filesystem reads, with
  write effects also expressible so that frame properties are
  non-vacuous) together with its Python return value, where a raised
  exception is `Except.error` and a normal return is `Except.ok`;
* the external helpers from `src.utils` (`get_report_name`,
  `period_dir_to_dates_range`) are universally-quantified function
  parameters, and `EntityNotFoundError` is one constructor of the error
  type;
* Python's `sorted` on path strings is modelled by a stable insertion
  sort under the lexicographic-by-code-point string order, which agrees
  extensionally with Python's sort for this total order.
-/

/-- A filesystem entry: a regular file with text content, or a directory
with a list of child entry names. -/
inductive Entry where
  | file (content : String)
  | dir (children : List String)
deriving DecidableEq

/-- A filesystem: a finite association of path strings to entries. -/
structure FS where
  entries : List (String × Entry)
deriving DecidableEq

/-- Look up the entry stored at path `p`. -/
def FS.find (fs : FS) (p : String) : Option Entry :=
  (fs.entries.find? (fun e => e.1 == p)).map (fun e => e.2)

/-- Models `Path.is_file()`: `p` names a regular file. -/
def FS.isFile (fs : FS) (p : String) : Bool :=
  match fs.find p with
  | some (Entry.file _) => true
  | _ => false

/-- Models `Path.is_dir()`: `p` names a directory. -/
def FS.isDir (fs : FS) (p : String) : Bool :=
  match fs.find p with
  | some (Entry.dir _) => true
  | _ => false

/-- Models `os.listdir(p)`: the child names of the directory at `p`
(in unspecified filesystem order; empty when `p` is not a directory). -/
def FS.listdir (fs : FS) (p : String) : List String :=
  match fs.find p with
  | some (Entry.dir cs) => cs
  | _ => []

/-- Models `open(p).read()`: `some content` when `p` is a regular file,
`none` when the open raises (missing path, or IsADirectoryError when `p`
is a directory). -/
def FS.openRead (fs : FS) (p : String) : Option String :=
  match fs.find p with
  | some (Entry.file c) => some c
  | _ => none

/-- The text content of the file at `p` (defaulting to `""` off files). -/
def FS.fileContent (fs : FS) (p : String) : String :=
  (fs.openRead p).getD ""

/-- An observable effect of one of the module's functions: a Streamlit
render call, or a filesystem access.  Write effects are part of the
effect language (so that "the module never writes" is a statement, not a
tautology of the type), but no function of the module emits them. -/
inductive Eff where
  | markdown (s : String)
  | caption (s : String)
  | header (s : String)
  | image
  | selectbox (labels : List String)
  | tabs (labels : List String)
  | html (s : String)
  | fsRead (path : String)
  | fsWrite (path : String) (content : String)
  | fsDelete (path : String)
deriving DecidableEq

/-- A Python exception raised by the module or by a filesystem call:
the domain error `EntityNotFoundError(msg)`, or an OS-level error from a
failed `open`. -/
inductive PyErr where
  | entityNotFound (msg : String)
  | osError (path : String)
deriving DecidableEq

/-- The value `display_report` returns: normally a list of report
contents, but on the missing-path branch an `EntityNotFoundError`
instance returned as data. -/
inductive ReportReturn where
  | contents (l : List String)
  | errValue (msg : String)
deriving DecidableEq

/-- Lexicographic order on code-point lists, as a Boolean: this is the
strict string order used by Python (and by Lean's `String` order). -/
def charListLt : List Char → List Char → Bool
  | [], [] => false
  | [], _ :: _ => true
  | _ :: _, [] => false
  | a :: as, b :: bs =>
    if a < b then true else if b < a then false else charListLt as bs

/-- Boolean string order `a ≤ b`, by code points, matching Python. -/
def strLe (a b : String) : Bool := !(charListLt b.data a.data)

/-- Models Python's `sorted` on strings: a stable sort under the total
lexicographic order (extensionally equal to Python's sort). -/
def pySorted (l : List String) : List String :=
  List.insertionSort (fun a b => strLe a b = true) l

/-- Models `pathlib`'s `dir / child` followed by `str`. -/
def joinPath (dir child : String) : String := dir ++ "/" ++ child

/-- Modelled from the spec: `st.sidebar.selectbox` (from the Streamlit
library, out of scope of the repo), a synchronous blocking UI control.
It renders one label per option, each derived by `format_func`, and
returns the option at the user-selected index; for a non-empty options
list the returned value is always one of the options, which we model by
reducing the selection index modulo the number of options. -/
def st_selectbox (fmt : String → String) (sel : Nat) (options : List String) :
    List Eff × String :=
  ([Eff.selectbox (options.map fmt)], options.getD (sel % options.length) "")

/-- `select_project` from `src/ui.py`: raises `EntityNotFoundError` on an
empty list, otherwise returns `Path(selected_project)` for the option
selected in the sidebar selectbox (the `Path` wrapper around a plain
name is modelled as the name string itself). -/
def select_project (sel : Nat) (projects : List String) :
    List Eff × Except PyErr String :=
  if projects.isEmpty then
    ([], Except.error (PyErr.entityNotFound "🔍 Projects not found"))
  else
    let r := st_selectbox (fun s => s) sel projects
    (r.1, Except.ok r.2)

/-- `select_period` from `src/ui.py`: raises `EntityNotFoundError` on an
empty list, otherwise returns the selected period directory string.  The
external `period_dir_to_dates_range` helper is the parameter `fmt`; the
code passes it to the selectbox as `format_func` only. -/
def select_period (fmt : String → String) (sel : Nat) (periods : List String) :
    List Eff × Except PyErr String :=
  if periods.isEmpty then
    ([], Except.error (PyErr.entityNotFound "🔍 No periods found"))
  else
    let r := st_selectbox fmt sel periods
    (r.1, Except.ok r.2)

/-- `select_report` from `src/ui.py`: raises `EntityNotFoundError` on an
empty list, otherwise returns the selected report name. -/
def select_report (sel : Nat) (report_names : List String) :
    List Eff × Except PyErr String :=
  if report_names.isEmpty then
    ([], Except.error (PyErr.entityNotFound "🔍 Reports not found"))
  else
    let r := st_selectbox (fun s => s) sel report_names
    (r.1, Except.ok r.2)

/-- `display_header` from `src/ui.py`: formats the period through the
external `period_dir_to_dates_range` helper (parameter `fmt`) and renders
the header block.  It raises nothing of its own. -/
def display_header (fmt : String → String)
    (project_name period report_name : String) :
    List Eff × Except PyErr Unit :=
  let dates_range := fmt period
  ([Eff.markdown "<div class=\"stHeader\">",
    Eff.caption ("💼 Project: " ++ project_name),
    Eff.header ("📊 " ++ report_name),
    Eff.caption ("📅 Period: " ++ dates_range),
    Eff.markdown "</div>"],
   Except.ok ())

/-- The loop body of `display_report`'s directory branch: for each report
part path in order, open and read it (raising on failure) and render the
content in its tab; returns the accumulated contents. -/
def readParts (fs : FS) : List String → List Eff × Except PyErr (List String)
  | [] => ([], Except.ok [])
  | q :: qs =>
    match fs.openRead q with
    | none => ([], Except.error (PyErr.osError q))
    | some c =>
      let r := readParts fs qs
      (Eff.fsRead q :: Eff.html c :: r.1, r.2.map (fun cs => c :: cs))

/-- `display_report` from `src/ui.py` (the cached function's body).  A
file path is read whole and embedded as one HTML block; a directory path
has its children listed, joined to the directory, sorted, labelled via
the external `get_report_name` helper (parameter `grn`) with a `"📈 "`
sigil, and each part read and rendered in its own tab; a path that is
neither yields an `EntityNotFoundError` instance returned as the result
value, not raised. -/
def display_report (grn : String → String) (fs : FS) (report_path : String) :
    List Eff × Except PyErr ReportReturn :=
  let openDiv := Eff.markdown "<div class=\"stReport\">"
  let closeDiv := Eff.markdown "</div>"
  if fs.isFile report_path then
    match fs.openRead report_path with
    | none => ([openDiv], Except.error (PyErr.osError report_path))
    | some report =>
      ([openDiv, Eff.fsRead report_path, Eff.html report, closeDiv],
       Except.ok (ReportReturn.contents [report]))
  else if fs.isDir report_path then
    let report_parts :=
      pySorted ((fs.listdir report_path).map (joinPath report_path))
    let tab_names_formatted := report_parts.map (fun q => "📈 " ++ grn q)
    let r := readParts fs report_parts
    match r.2 with
    | Except.error e =>
      (openDiv :: Eff.tabs tab_names_formatted :: r.1, Except.error e)
    | Except.ok report_contents =>
      (openDiv :: Eff.tabs tab_names_formatted :: (r.1 ++ [closeDiv]),
       Except.ok (ReportReturn.contents report_contents))
  else
    ([openDiv, closeDiv],
     Except.ok (ReportReturn.errValue "🔍 No reports found"))

/-- Modelled from the spec: the `st.cache_data` decorator wrapped around
`display_report` (Streamlit library code, out of scope of the repo).  It
memoizes the function by its `report_path` argument: on a cache hit the
body is not run (no effects, no filesystem reads) and the stored value is
returned; on a miss the body runs and a successful result is stored. -/
def display_report_cached (grn : String → String) (fs : FS)
    (cache : List (String × ReportReturn)) (report_path : String) :
    List Eff × Except PyErr ReportReturn × List (String × ReportReturn) :=
  match cache.find? (fun e => e.1 == report_path) with
  | some entry => ([], Except.ok entry.2, cache)
  | none =>
    let r := display_report grn fs report_path
    match r.2 with
    | Except.ok v => (r.1, Except.ok v, (report_path, v) :: cache)
    | Except.error e => (r.1, Except.error e, cache)

/-- The constant CSS pushed by `set_page_container_style` (braces written
as character escapes). -/
def pageContainerCss : String :=
  "\n        <style>\n            /* Main area styling */\n            .main > div \x7b\n                max-width: 100%;\n                padding: 1rem 2rem;\n            \x7d\n\n            /* Tabs styling */\n            button[data-baseweb=\"tab\"] div p \x7b\n                font-size: 16px;\n                font-weight: 600;\n            \x7d\n\n            /* Sidebar styling */\n            .css-1d391kg \x7b\n                padding: 2rem 1rem;\n            \x7d\n\n            /* Selectbox styling */\n            .stSelectbox \x7b\n                margin-bottom: 1.5rem;\n            \x7d\n\n            /* Header styling */\n            .stHeader \x7b\n                background-color: #f8f9fa;\n                padding: 1.5rem;\n                border-radius: 0.5rem;\n                margin-bottom: 2rem;\n            \x7d\n\n            /* Caption styling */\n            .stCaption \x7b\n                font-size: 1rem;\n                color: #6c757d;\n                margin-bottom: 0.5rem;\n            \x7d\n\n            /* Report container styling */\n            .stReport \x7b\n                background-color: white;\n                border-radius: 0.5rem;\n                box-shadow: 0 2px 4px rgba(0,0,0,0.1);\n                padding: 1rem;\n            \x7d\n\n            /* Sidebar link styling */\n            .sidebar-link \x7b\n                display: inline-block;\n                text-align: center;\n                width: 100%;\n                padding: 0.75rem;\n                margin: 0.5rem 0;\n                border-radius: 0.5rem;\n                text-decoration: none;\n                background-color: #f8f9fa;\n                color: #1f2937;\n                font-weight: 500;\n                transition: all 0.2s ease;\n            \x7d\n\n            .sidebar-link:hover \x7b\n                background-color: #e5e7eb;\n                transform: translateY(-1px);\n                box-shadow: 0 2px 4px rgba(0,0,0,0.05);\n            \x7d\n\n            /* Logo container styling */\n            .logo-container \x7b\n                margin-bottom: 2rem;\n                padding: 1rem;\n                background-color: white;\n                border-radius: 0.5rem;\n                box-shadow: 0 2px 4px rgba(0,0,0,0.1);\n            \x7d\n        </style>\n    "

/-- `set_page_container_style` from `src/ui.py`: pushes constant CSS. -/
def set_page_container_style : List Eff × Except PyErr Unit :=
  ([Eff.markdown pageContainerCss], Except.ok ())

/-- `display_sidebar_header` from `src/ui.py`: opens the logo image file
(raising if it cannot be opened), then renders the logo and two static
external links in the sidebar. -/
def display_sidebar_header (fs : FS) : List Eff × Except PyErr Unit :=
  match fs.openRead "static/logo.png" with
  | none => ([], Except.error (PyErr.osError "static/logo.png"))
  | some _ =>
    ([Eff.fsRead "static/logo.png",
      Eff.markdown "<div class=\"logo-container\">",
      Eff.image,
      Eff.markdown "</div>",
      Eff.markdown "<a class=\"sidebar-link\" href=\"https://github.com/mnrozhkov/evidently/tree/main/examples/integrations\" target=\"_blank\">📚 Source code</a>",
      Eff.markdown "<a class=\"sidebar-link\" href=\"https://docs.evidentlyai.com/\" target=\"_blank\">📖 Evidently docs</a>",
      Eff.markdown "<hr style='margin: 2rem 0;'>"],
     Except.ok ())

/-- Apply one effect to the filesystem: render calls and reads leave it
unchanged; the (never-emitted) write effects would change it. -/
def FS.applyEff (fs : FS) : Eff → FS
  | Eff.fsWrite p c => ⟨(p, Entry.file c) :: fs.entries.filter (fun e => e.1 != p)⟩
  | Eff.fsDelete p => ⟨fs.entries.filter (fun e => e.1 != p)⟩
  | _ => fs

/-- The filesystem after a whole effect trace runs. -/
def FS.applyEffs (fs : FS) (effs : List Eff) : FS :=
  effs.foldl FS.applyEff fs

/-- Is this effect a rendered line of text (a caption or a heading)? -/
def Eff.isTextLine : Eff → Bool
  | Eff.caption _ => true
  | Eff.header _ => true
  | _ => false

/-- Is this effect a filesystem read? -/
def Eff.isRead : Eff → Bool
  | Eff.fsRead _ => true
  | _ => false

/-- All tab labels created by a trace, in order. -/
def emittedTabLabels (effs : List Eff) : List String :=
  effs.foldr (fun e acc => match e with | Eff.tabs ls => ls ++ acc | _ => acc) []

/-- Is this effect a filesystem mutation (write or delete)? -/
def Eff.isWrite : Eff → Bool
  | Eff.fsWrite _ _ => true
  | Eff.fsDelete _ => true
  | _ => false

/-- A small concrete filesystem used to instantiate the theorems: one
single-file report `"f"`, one directory report `"r"` with two part files
(listed out of order by the filesystem), and the sidebar logo. -/
def fsEx : FS :=
  ⟨[("r", Entry.dir ["b", "a"]),
    ("r/a", Entry.file "A"),
    ("r/b", Entry.file "B"),
    ("f", Entry.file "hello"),
    ("static/logo.png", Entry.file "png-bytes")]⟩

/-! ### Order lemmas: the Boolean string order agrees with `String ≤` -/

lemma charListLt_iff (s t : List Char) : charListLt s t = true ↔ List.lt s t := by
  induction s generalizing t with
  | nil =>
    cases t with
    | nil =>
      simp only [charListLt, Bool.false_eq_true, false_iff]
      intro h
      nomatch h
    | cons b bs =>
      simp only [charListLt, true_iff]
      exact List.lt.nil b bs
  | cons a as ih =>
    cases t with
    | nil =>
      simp only [charListLt, Bool.false_eq_true, false_iff]
      intro h
      nomatch h
    | cons b bs =>
      by_cases hab : a < b
      · simp only [charListLt, if_pos hab, true_iff]
        exact List.lt.head as bs hab
      · by_cases hba : b < a
        · simp only [charListLt, if_neg hab, if_pos hba, Bool.false_eq_true, false_iff]
          intro h
          cases h with
          | head _ _ h1 => exact hab h1
          | tail _ h2 _ => exact h2 hba
        · simp only [charListLt, if_neg hab, if_neg hba]
          rw [ih bs]
          constructor
          · intro h
            exact List.lt.tail hab hba h
          · intro h
            cases h with
            | head _ _ h1 => exact absurd h1 hab
            | tail _ _ h3 => exact h3

lemma charListLt_iff_lex (s t : List Char) :
    charListLt s t = true ↔ List.Lex (· < ·) s t :=
  (charListLt_iff s t).trans (List.lt_iff_lex_lt s t)

lemma strLe_iff (a b : String) : strLe a b = true ↔ a ≤ b := by
  rw [String.le_iff_toList_le, ← not_lt]
  have hb : (b.toList < a.toList) ↔ List.Lex (· < ·) b.data a.data := Iff.rfl
  rw [hb, ← charListLt_iff_lex]
  unfold strLe
  cases h : charListLt b.data a.data <;> simp [h]

lemma charListLt_append (p s t : List Char) :
    charListLt (p ++ s) (p ++ t) = charListLt s t := by
  induction p with
  | nil => rfl
  | cons c cs ih =>
    simp only [List.cons_append, charListLt, if_neg (lt_irrefl c)]
    exact ih

lemma strLe_append (p a b : String) : strLe (p ++ a) (p ++ b) = strLe a b := by
  unfold strLe
  rw [String.data_append, String.data_append, charListLt_append]

lemma append_le_append_iff (p a b : String) : p ++ a ≤ p ++ b ↔ a ≤ b := by
  rw [← strLe_iff, ← strLe_iff, strLe_append]

lemma strLeRel_total (a b : String) : strLe a b = true ∨ strLe b a = true := by
  rcases le_total a b with h | h
  · exact Or.inl ((strLe_iff a b).mpr h)
  · exact Or.inr ((strLe_iff b a).mpr h)

lemma strLeRel_trans (a b c : String)
    (h1 : strLe a b = true) (h2 : strLe b c = true) : strLe a c = true :=
  (strLe_iff a c).mpr (le_trans ((strLe_iff a b).mp h1) ((strLe_iff b c).mp h2))

lemma pySorted_sorted (l : List String) :
    List.Sorted (· ≤ ·) (pySorted l) := by
  haveI : IsTotal String (fun a b => strLe a b = true) := ⟨strLeRel_total⟩
  haveI : IsTrans String (fun a b => strLe a b = true) := ⟨strLeRel_trans⟩
  have h := List.sorted_insertionSort (fun a b : String => strLe a b = true) l
  exact h.imp (fun hr => (strLe_iff _ _).mp hr)

lemma pySorted_perm (l : List String) : (pySorted l).Perm l :=
  List.perm_insertionSort _ l

lemma pySorted_length (l : List String) : (pySorted l).length = l.length :=
  (pySorted_perm l).length_eq

lemma pySorted_map_append (pre : String) (l : List String) :
    pySorted (l.map (fun c => pre ++ c)) = (pySorted l).map (fun c => pre ++ c) := by
  apply List.eq_of_perm_of_sorted (r := (· ≤ · : String → String → Prop))
  · exact (pySorted_perm _).trans ((pySorted_perm l).map _).symm
  · exact pySorted_sorted _
  · exact List.pairwise_map.mpr
      ((pySorted_sorted l).imp (fun h => (append_le_append_iff pre _ _).mpr h))

lemma joinPath_eq (p : String) : joinPath p = fun c => (p ++ "/") ++ c := rfl

lemma pySorted_map_joinPath (p : String) (l : List String) :
    pySorted (l.map (joinPath p)) = (pySorted l).map (joinPath p) := by
  rw [joinPath_eq]
  exact pySorted_map_append (p ++ "/") l

/-! ### Filesystem helper lemmas -/

lemma FS.openRead_isSome_iff (fs : FS) (p : String) :
    (fs.openRead p).isSome = fs.isFile p := by
  cases h : fs.find p with
  | none => simp [FS.openRead, FS.isFile, h]
  | some e => cases e <;> simp [FS.openRead, FS.isFile, h]

lemma FS.isFile_eq_false_of_isDir (fs : FS) (p : String)
    (h : fs.isDir p = true) : fs.isFile p = false := by
  cases hf : fs.find p with
  | none => simp [FS.isDir, hf] at h
  | some e =>
    cases e with
    | file c => simp [FS.isDir, hf] at h
    | dir cs => simp [FS.isFile, hf]

lemma FS.openRead_eq_some (fs : FS) (p : String) (h : fs.isFile p = true) :
    fs.openRead p = some (fs.fileContent p) := by
  cases hf : fs.find p with
  | none => simp [FS.isFile, hf] at h
  | some e =>
    cases e with
    | file c => simp [FS.openRead, FS.fileContent, hf]
    | dir cs => simp [FS.isFile, hf] at h

/-! ### Lemmas about the directory-branch loop -/

lemma readParts_ok_of_files (fs : FS) (l : List String)
    (h : ∀ q ∈ l, fs.isFile q = true) :
    (readParts fs l).2 = Except.ok (l.map fs.fileContent) := by
  induction l with
  | nil => rfl
  | cons q qs ih =>
    have hq := FS.openRead_eq_some fs q (h q (List.mem_cons_self q qs))
    simp only [readParts, hq]
    rw [ih (fun r hr => h r (List.mem_cons_of_mem q hr))]
    rfl

lemma readParts_ok_iff (fs : FS) (l : List String) :
    (∃ cs, (readParts fs l).2 = Except.ok cs) ↔ ∀ q ∈ l, fs.isFile q = true := by
  induction l with
  | nil => simp [readParts]
  | cons q qs ih =>
    cases hq : fs.openRead q with
    | none =>
      have hfq : fs.isFile q = false := by
        rw [← FS.openRead_isSome_iff, hq]
        rfl
      constructor
      · intro hex
        rcases hex with ⟨cs, hcs⟩
        simp only [readParts, hq] at hcs
        exact Except.noConfusion hcs
      · intro hall
        rw [hall q (List.mem_cons_self q qs)] at hfq
        exact absurd hfq (by simp)
    | some c =>
      have hfq : fs.isFile q = true := by
        rw [← FS.openRead_isSome_iff, hq]
        rfl
      constructor
      · intro hex
        intro r hr
        rcases List.mem_cons.mp hr with rfl | hmem
        · exact hfq
        · refine (ih.mp ?_) r hmem
          rcases hex with ⟨cs, hcs⟩
          simp only [readParts, hq] at hcs
          cases hr2 : (readParts fs qs).2 with
          | error e =>
            rw [hr2] at hcs
            simp [Except.map] at hcs
          | ok cs2 => exact ⟨cs2, rfl⟩
      · intro hall
        exact ⟨_, readParts_ok_of_files fs (q :: qs) hall⟩

lemma readParts_trace_shape (fs : FS) (l : List String) :
    ∀ e ∈ (readParts fs l).1,
      (∃ q, e = Eff.fsRead q) ∨ (∃ s, e = Eff.html s) := by
  induction l with
  | nil =>
    intro e he
    simp [readParts] at he
  | cons q qs ih =>
    intro e he
    cases hq : fs.openRead q with
    | none =>
      simp only [readParts, hq] at he
      simp at he
    | some c =>
      simp only [readParts, hq, List.mem_cons] at he
      rcases he with rfl | rfl | hmem
      · exact Or.inl ⟨q, rfl⟩
      · exact Or.inr ⟨c, rfl⟩
      · exact ih e hmem

/-! ### Lemmas about tab labels in a trace -/

lemma emittedTabLabels_cons (e : Eff) (es : List Eff) :
    emittedTabLabels (e :: es) =
      (match e with | Eff.tabs ls => ls | _ => []) ++ emittedTabLabels es := by
  cases e <;> rfl

lemma emittedTabLabels_append (a b : List Eff) :
    emittedTabLabels (a ++ b) = emittedTabLabels a ++ emittedTabLabels b := by
  induction a with
  | nil => rfl
  | cons e es ih =>
    rw [List.cons_append, emittedTabLabels_cons, emittedTabLabels_cons, ih,
      List.append_assoc]

lemma emittedTabLabels_eq_nil (effs : List Eff)
    (h : ∀ e ∈ effs, (∃ q, e = Eff.fsRead q) ∨ (∃ s, e = Eff.html s)) :
    emittedTabLabels effs = [] := by
  induction effs with
  | nil => rfl
  | cons e es ih =>
    rw [emittedTabLabels_cons]
    rcases h e (List.mem_cons_self e es) with ⟨q, rfl⟩ | ⟨s, rfl⟩ <;>
      simpa using ih (fun x hx => h x (List.mem_cons_of_mem _ hx))

/-! ### Frame lemmas: effects that are not writes leave the filesystem alone -/

lemma FS.applyEff_eq_of_not_write (fs : FS) (e : Eff) (h : e.isWrite = false) :
    fs.applyEff e = fs := by
  cases e <;> first | rfl | simp [Eff.isWrite] at h

lemma FS.applyEffs_eq_of_no_writes (fs : FS) (effs : List Eff)
    (h : ∀ e ∈ effs, e.isWrite = false) : fs.applyEffs effs = fs := by
  induction effs generalizing fs with
  | nil => rfl
  | cons e es ih =>
    simp only [FS.applyEffs, List.foldl_cons]
    rw [FS.applyEff_eq_of_not_write fs e (h e (List.mem_cons_self e es))]
    exact ih fs (fun x hx => h x (List.mem_cons_of_mem e hx))

lemma display_report_no_writes (grn : String → String) (fs : FS) (p : String) :
    ∀ e ∈ (display_report grn fs p).1, e.isWrite = false := by
  intro e he
  by_cases hf : fs.isFile p
  · cases hor : fs.openRead p with
    | none =>
      simp only [display_report, if_pos hf, hor, List.mem_singleton] at he
      subst he
      rfl
    | some c =>
      simp only [display_report, if_pos hf, hor, List.mem_cons,
        List.not_mem_nil, or_false] at he
      rcases he with rfl | rfl | rfl | rfl <;> rfl
  · by_cases hd : fs.isDir p
    · simp only [display_report, if_neg hf, if_pos hd] at he
      cases hr : (readParts fs (pySorted ((fs.listdir p).map (joinPath p)))).2 with
      | error er =>
        rw [hr] at he
        simp only [List.mem_cons] at he
        rcases he with rfl | rfl | hmem
        · rfl
        · rfl
        · rcases readParts_trace_shape fs _ e hmem with ⟨q, rfl⟩ | ⟨s, rfl⟩ <;> rfl
      | ok cs =>
        rw [hr] at he
        simp only [List.mem_cons, List.mem_append, List.not_mem_nil,
          or_false] at he
        rcases he with rfl | rfl | hmem | rfl
        · rfl
        · rfl
        · rcases readParts_trace_shape fs _ e hmem with ⟨q, rfl⟩ | ⟨s, rfl⟩ <;> rfl
        · rfl
    · simp only [display_report, if_neg hf, if_neg hd, List.mem_cons,
        List.not_mem_nil, or_false] at he
      rcases he with rfl | rfl <;> rfl

/-! ### Selectbox helper lemmas -/

lemma isEmpty_false_of_ne_nil {l : List String} (h : l ≠ []) :
    l.isEmpty = false := by
  cases l with
  | nil => exact absurd rfl h
  | cons a as => rfl

lemma st_selectbox_mem (fmt : String → String) (sel : Nat) (options : List String)
    (h : options ≠ []) : (st_selectbox fmt sel options).2 ∈ options := by
  have hlen : 0 < options.length := List.length_pos.mpr h
  have hlt : sel % options.length < options.length := Nat.mod_lt _ hlen
  simp only [st_selectbox]
  rw [List.getD_eq_getElem?_getD, List.getElem?_eq_getElem hlt]
  exact List.getElem_mem hlt

/-! ### Evaluation lemma for the directory branch -/

lemma display_report_dir_eval (grn : String → String) (fs : FS) (p : String)
    (hdir : fs.isDir p = true) (cs : List String)
    (hro : (readParts fs (pySorted ((fs.listdir p).map (joinPath p)))).2 =
      Except.ok cs) :
    display_report grn fs p =
      (Eff.markdown "<div class=\"stReport\">" ::
        Eff.tabs ((pySorted ((fs.listdir p).map (joinPath p))).map
          (fun q => "📈 " ++ grn q)) ::
        ((readParts fs (pySorted ((fs.listdir p).map (joinPath p)))).1 ++
          [Eff.markdown "</div>"]),
       Except.ok (ReportReturn.contents cs)) := by
  have hf := FS.isFile_eq_false_of_isDir fs p hdir
  simp [display_report, hf, hdir, hro]

/-! ### Claim theorems -/

/-- Claim C2: for every report path that is a single existing file,
`display_report` returns a one-element list whose sole element equals the
entire text content of that file. -/
theorem display_report_single_file (grn : String → String) (fs : FS)
    (p : String) (hf : fs.isFile p = true) :
    display_report grn fs p =
      ([Eff.markdown "<div class=\"stReport\">", Eff.fsRead p,
        Eff.html (fs.fileContent p), Eff.markdown "</div>"],
       Except.ok (ReportReturn.contents [fs.fileContent p])) := by
  have hr := FS.openRead_eq_some fs p hf
  simp [display_report, hf, hr]

/-- Witness for C2 at a concrete filesystem and file path. -/
theorem display_report_single_file_witness :
    fsEx.isFile "f" = true ∧
    display_report (fun s => s) fsEx "f" =
      ([Eff.markdown "<div class=\"stReport\">", Eff.fsRead "f",
        Eff.html "hello", Eff.markdown "</div>"],
       Except.ok (ReportReturn.contents ["hello"])) :=
  ⟨by decide, display_report_single_file (fun s => s) fsEx "f" (by decide)⟩

/-- Claim C3: for a report path that is neither an existing file nor an
existing directory, `display_report` returns an `EntityNotFoundError`
value as its result (an `Except.ok` carrying the error as data); no
exception is raised on this branch. -/
theorem display_report_missing_returns_error_value (grn : String → String)
    (fs : FS) (p : String) (hf : fs.isFile p = false)
    (hd : fs.isDir p = false) :
    display_report grn fs p =
      ([Eff.markdown "<div class=\"stReport\">", Eff.markdown "</div>"],
       Except.ok (ReportReturn.errValue "🔍 No reports found")) := by
  simp [display_report, hf, hd]

/-- Witness for C3 at a concrete filesystem and a nonexistent path. -/
theorem display_report_missing_returns_error_value_witness :
    fsEx.isFile "nope" = false ∧ fsEx.isDir "nope" = false ∧
    display_report (fun s => s) fsEx "nope" =
      ([Eff.markdown "<div class=\"stReport\">", Eff.markdown "</div>"],
       Except.ok (ReportReturn.errValue "🔍 No reports found")) :=
  ⟨by decide, by decide,
    display_report_missing_returns_error_value (fun s => s) fsEx "nope"
      (by decide) (by decide)⟩

/-- Claim C4: on an empty input list, each of the three selectors raises
`EntityNotFoundError` carrying a non-empty human-readable message. -/
theorem selectors_empty_raise_entity_not_found (sel : Nat)
    (fmt : String → String) :
    (select_project sel []).2 =
        Except.error (PyErr.entityNotFound "🔍 Projects not found") ∧
    (select_period fmt sel []).2 =
        Except.error (PyErr.entityNotFound "🔍 No periods found") ∧
    (select_report sel []).2 =
        Except.error (PyErr.entityNotFound "🔍 Reports not found") ∧
    "🔍 Projects not found" ≠ "" ∧
    "🔍 No periods found" ≠ "" ∧
    "🔍 Reports not found" ≠ "" :=
  ⟨rfl, rfl, rfl, by decide, by decide, by decide⟩

/-- Claim C5: on a non-empty list of string options, each selector
returns (without raising) exactly one element that belongs to the input
list. -/
theorem selectors_nonempty_return_member (sel : Nat) (fmt : String → String)
    (options : List String) (h : options ≠ []) :
    (∃ v, (select_project sel options).2 = Except.ok v ∧ v ∈ options) ∧
    (∃ v, (select_period fmt sel options).2 = Except.ok v ∧ v ∈ options) ∧
    (∃ v, (select_report sel options).2 = Except.ok v ∧ v ∈ options) := by
  have hne := isEmpty_false_of_ne_nil h
  refine
    ⟨⟨(st_selectbox (fun s => s) sel options).2, ?_,
        st_selectbox_mem _ sel options h⟩,
      ⟨(st_selectbox fmt sel options).2, ?_,
        st_selectbox_mem fmt sel options h⟩,
      ⟨(st_selectbox (fun s => s) sel options).2, ?_,
        st_selectbox_mem _ sel options h⟩⟩ <;>
    simp [select_project, select_period, select_report, hne]

/-- Witness for C5 at a concrete non-empty options list. -/
theorem selectors_nonempty_return_member_witness :
    (["alpha", "beta"] : List String) ≠ [] ∧
    ((∃ v, (select_project 1 ["alpha", "beta"]).2 = Except.ok v ∧
        v ∈ ["alpha", "beta"]) ∧
     (∃ v, (select_period (fun s => s ++ "!") 1 ["alpha", "beta"]).2 =
        Except.ok v ∧ v ∈ ["alpha", "beta"]) ∧
     (∃ v, (select_report 1 ["alpha", "beta"]).2 = Except.ok v ∧
        v ∈ ["alpha", "beta"])) :=
  ⟨by decide,
    selectors_nonempty_return_member 1 (fun s => s ++ "!") ["alpha", "beta"]
      (by decide)⟩

/-- Claim C8: `display_header` derives the period display string by
applying the external date-range formatter to the period, renders exactly
three lines of text (project caption, report heading, period caption),
and raises no error of its own. -/
theorem display_header_three_text_lines (fmt : String → String)
    (project_name period report_name : String) :
    (display_header fmt project_name period report_name).2 = Except.ok () ∧
    (display_header fmt project_name period report_name).1.filter
        Eff.isTextLine =
      [Eff.caption ("💼 Project: " ++ project_name),
       Eff.header ("📊 " ++ report_name),
       Eff.caption ("📅 Period: " ++ fmt period)] ∧
    ((display_header fmt project_name period report_name).1.filter
        Eff.isTextLine).length = 3 :=
  ⟨rfl, rfl, rfl⟩

/-- Claim C9: `select_period` returns the selected period directory
string unchanged — a member of the input list, independent of the
formatter — while the formatter is applied to every displayed option
label. -/
theorem select_period_returns_period_unchanged (fmt : String → String)
    (sel : Nat) (periods : List String) (h : periods ≠ []) :
    ∃ v, select_period fmt sel periods =
        ([Eff.selectbox (periods.map fmt)], Except.ok v) ∧
      v ∈ periods ∧
      ∀ fmt2 : String → String,
        (select_period fmt2 sel periods).2 = Except.ok v := by
  have hne := isEmpty_false_of_ne_nil h
  refine ⟨(st_selectbox fmt sel periods).2, ?_,
    st_selectbox_mem fmt sel periods h, ?_⟩
  · simp [select_period, hne, st_selectbox]
  · intro fmt2
    simp [select_period, hne, st_selectbox]

/-- Witness for C9 at a concrete non-empty period list and a
non-identity formatter. -/
theorem select_period_returns_period_unchanged_witness :
    (["p1", "p2"] : List String) ≠ [] ∧
    ∃ v, select_period (fun s => s ++ "-formatted") 0 ["p1", "p2"] =
        ([Eff.selectbox ["p1-formatted", "p2-formatted"]], Except.ok v) ∧
      v ∈ ["p1", "p2"] ∧
      ∀ fmt2 : String → String,
        (select_period fmt2 0 ["p1", "p2"]).2 = Except.ok v :=
  ⟨by decide,
    select_period_returns_period_unchanged (fun s => s ++ "-formatted") 0
      ["p1", "p2"] (by decide)⟩

/-- Claim C6: re-invoking the cached report renderer with an identical
path returns content identical to the first invocation's result, and the
second invocation performs no filesystem read (it is served from the
cache keyed by the report path). -/
theorem display_report_cached_second_call_hits_cache (grn : String → String)
    (fs : FS) (p : String) (effs : List Eff) (v : ReportReturn)
    (cache2 : List (String × ReportReturn))
    (h : display_report_cached grn fs [] p = (effs, Except.ok v, cache2)) :
    display_report_cached grn fs cache2 p = ([], Except.ok v, cache2) ∧
    ∀ e ∈ (display_report_cached grn fs cache2 p).1, e.isRead = false := by
  simp only [display_report_cached, List.find?_nil] at h
  cases hr : (display_report grn fs p).2 with
  | error e =>
    rw [hr] at h
    simp at h
  | ok v0 =>
    rw [hr] at h
    simp only [Prod.mk.injEq, Except.ok.injEq] at h
    obtain ⟨h1, h2, h3⟩ := h
    subst h2
    subst h3
    have hfind : List.find? (fun e => e.1 == p) [(p, v0)] = some (p, v0) :=
      List.find?_cons_of_pos _ (by simp)
    constructor
    · simp [display_report_cached, hfind]
    · intro e he
      simp only [display_report_cached, hfind] at he
      simp at he

/-- Witness for C6: a first call on a concrete single-file report path
fills the cache, and the second call is a pure cache hit. -/
theorem display_report_cached_second_call_hits_cache_witness :
    display_report_cached (fun s => s) fsEx [] "f" =
      ([Eff.markdown "<div class=\"stReport\">", Eff.fsRead "f",
        Eff.html "hello", Eff.markdown "</div>"],
       Except.ok (ReportReturn.contents ["hello"]),
       [("f", ReportReturn.contents ["hello"])]) ∧
    display_report_cached (fun s => s) fsEx
        [("f", ReportReturn.contents ["hello"])] "f" =
      ([], Except.ok (ReportReturn.contents ["hello"]),
       [("f", ReportReturn.contents ["hello"])]) :=
  ⟨rfl,
    (display_report_cached_second_call_hits_cache (fun s => s) fsEx "f"
      [Eff.markdown "<div class=\"stReport\">", Eff.fsRead "f",
        Eff.html "hello", Eff.markdown "</div>"]
      (ReportReturn.contents ["hello"])
      [("f", ReportReturn.contents ["hello"])] rfl).1⟩

/-- Claim C10: on a directory path, the directory branch completes
without raising exactly when every listed child is a regular file; a
child that is not a regular file (for instance a subdirectory) makes the
open on that child fail, so the renderer raises. -/
theorem display_report_dir_ok_iff_children_files (grn : String → String)
    (fs : FS) (p : String) (hdir : fs.isDir p = true) :
    (∃ v, (display_report grn fs p).2 = Except.ok v) ↔
      ∀ c ∈ fs.listdir p, fs.isFile (joinPath p c) = true := by
  have hf : fs.isFile p = false := FS.isFile_eq_false_of_isDir fs p hdir
  have hmem : ∀ q, q ∈ pySorted ((fs.listdir p).map (joinPath p)) ↔
      ∃ c ∈ fs.listdir p, joinPath p c = q := by
    intro q
    rw [(pySorted_perm _).mem_iff, List.mem_map]
  constructor
  · intro hex c hc
    rcases hex with ⟨v, hv⟩
    simp only [display_report, hf, hdir, Bool.false_eq_true, if_false,
      if_true] at hv
    cases hr : (readParts fs (pySorted ((fs.listdir p).map (joinPath p)))).2 with
    | error e =>
      rw [hr] at hv
      simp at hv
    | ok cs =>
      have hall := (readParts_ok_iff fs _).mp ⟨cs, hr⟩
      exact hall (joinPath p c) ((hmem _).mpr ⟨c, hc, rfl⟩)
  · intro hall
    have hfiles : ∀ q ∈ pySorted ((fs.listdir p).map (joinPath p)),
        fs.isFile q = true := by
      intro q hq
      rcases (hmem q).mp hq with ⟨c, hc, rfl⟩
      exact hall c hc
    have hro := readParts_ok_of_files fs _ hfiles
    exact ⟨ReportReturn.contents
        ((pySorted ((fs.listdir p).map (joinPath p))).map fs.fileContent),
      by rw [display_report_dir_eval grn fs p hdir _ hro]⟩

/-- Witness for C10 at a concrete directory report path. -/
theorem display_report_dir_ok_iff_children_files_witness :
    fsEx.isDir "r" = true ∧
    ((∃ v, (display_report (fun s => s) fsEx "r").2 = Except.ok v) ↔
      ∀ c ∈ fsEx.listdir "r", fsEx.isFile (joinPath "r" c) = true) :=
  ⟨by decide,
    display_report_dir_ok_iff_children_files (fun s => s) fsEx "r" (by decide)⟩

/-- Claim C7: no function of the module mutates the filesystem — running
any function's effect trace against the filesystem leaves it unchanged
(the module only reads). -/
theorem module_preserves_filesystem (grn fmt : String → String) (fs : FS)
    (sel : Nat) (options : List String) (pn per rn p : String) :
    fs.applyEffs set_page_container_style.1 = fs ∧
    fs.applyEffs (display_sidebar_header fs).1 = fs ∧
    fs.applyEffs (select_project sel options).1 = fs ∧
    fs.applyEffs (select_period fmt sel options).1 = fs ∧
    fs.applyEffs (select_report sel options).1 = fs ∧
    fs.applyEffs (display_header fmt pn per rn).1 = fs ∧
    fs.applyEffs (display_report grn fs p).1 = fs := by
  refine ⟨rfl, ?_, ?_, ?_, ?_, rfl, ?_⟩
  · cases ho : fs.openRead "static/logo.png" <;>
      simp [display_sidebar_header, ho, FS.applyEffs, FS.applyEff]
  · by_cases he : options.isEmpty <;>
      simp [select_project, he, st_selectbox, FS.applyEffs, FS.applyEff]
  · by_cases he : options.isEmpty <;>
      simp [select_period, he, st_selectbox, FS.applyEffs, FS.applyEff]
  · by_cases he : options.isEmpty <;>
      simp [select_report, he, st_selectbox, FS.applyEffs, FS.applyEff]
  · exact FS.applyEffs_eq_of_no_writes fs _ (display_report_no_writes grn fs p)

/-- Claim C1: on a directory report path whose N listed children are all
regular files, `display_report` returns exactly the N file contents in
ascending lexicographic order of file name, and creates exactly N tab
labels, one per child, each derived from the child's path by the
external `get_report_name` helper. -/
theorem display_report_dir_sorted_contents_and_labels (grn : String → String)
    (fs : FS) (p : String) (hdir : fs.isDir p = true)
    (hfiles : ∀ c ∈ fs.listdir p, fs.isFile (joinPath p c) = true) :
    (display_report grn fs p).2 =
      Except.ok (ReportReturn.contents
        ((pySorted (fs.listdir p)).map (fun c => fs.fileContent (joinPath p c)))) ∧
    emittedTabLabels (display_report grn fs p).1 =
      (pySorted (fs.listdir p)).map (fun c => "📈 " ++ grn (joinPath p c)) ∧
    ((pySorted (fs.listdir p)).map
        (fun c => fs.fileContent (joinPath p c))).length =
      (fs.listdir p).length ∧
    ((pySorted (fs.listdir p)).map
        (fun c => "📈 " ++ grn (joinPath p c))).length =
      (fs.listdir p).length ∧
    (pySorted (fs.listdir p)).Perm (fs.listdir p) ∧
    List.Sorted (· ≤ ·) (pySorted (fs.listdir p)) := by
  have hparts : pySorted ((fs.listdir p).map (joinPath p)) =
      (pySorted (fs.listdir p)).map (joinPath p) :=
    pySorted_map_joinPath p (fs.listdir p)
  have hfiles2 : ∀ q ∈ pySorted ((fs.listdir p).map (joinPath p)),
      fs.isFile q = true := by
    intro q hq
    rw [hparts] at hq
    rcases List.mem_map.mp hq with ⟨c, hc, rfl⟩
    exact hfiles c ((pySorted_perm _).mem_iff.mp hc)
  have hro := readParts_ok_of_files fs _ hfiles2
  have heval := display_report_dir_eval grn fs p hdir _ hro
  refine ⟨?_, ?_, by simp [pySorted_length], by simp [pySorted_length],
    pySorted_perm _, pySorted_sorted _⟩
  · rw [heval]
    simp only [hparts, List.map_map]
    rfl
  · rw [heval, emittedTabLabels_cons, emittedTabLabels_cons,
      emittedTabLabels_append,
      emittedTabLabels_eq_nil _ (readParts_trace_shape fs _)]
    simp [hparts, List.map_map, emittedTabLabels, Function.comp]

/-- Witness for C1: a concrete directory report whose two children are
listed by the filesystem out of order and come back sorted, with one tab
label per child. -/
theorem display_report_dir_sorted_contents_and_labels_witness :
    fsEx.isDir "r" = true ∧
    (∀ c ∈ fsEx.listdir "r", fsEx.isFile (joinPath "r" c) = true) ∧
    (display_report (fun s => s) fsEx "r").2 =
      Except.ok (ReportReturn.contents ["A", "B"]) ∧
    emittedTabLabels (display_report (fun s => s) fsEx "r").1 =
      ["📈 r/a", "📈 r/b"] := by
  have h := display_report_dir_sorted_contents_and_labels (fun s => s) fsEx "r"
    (by decide) (by decide)
  refine ⟨by decide, by decide, ?_, ?_⟩
  · rw [h.1]
    rfl
  · rw [h.2.1]
    rfl
